import Mathlib

/-!
Shallow embedding of `MinerviniScreener.py`: a batch stock screener that
fetches price data in batches with retries, applies the Minervini trend
template and a liquidity gate per ticker, scores survivors with a
multi-horizon rate-of-change composite, percentile-ranks them, left-merges
the ranks onto the survivor table, and emits a sorted candidate table plus
a (sector, industry) aggregate report.

Prices and volumes are modelled as exact rationals (the Python code uses
floats; floating-point rounding is out of scope).  Fallible steps return
`Option`/`Except`.  External collaborators (yfinance, the random number
generator) are modelled as oracle functions supplied to the pipeline.
-/

namespace MinerviniScreener

/-! ## CONFIG (lines 16-25) -/

def MIN_VOLUME : ℚ := 300000

def MA_SHORT : Nat := 50

def MA_MED : Nat := 150

def MA_LONG : Nat := 200

def BATCH_SIZE : Nat := 15

def MAX_RETRIES : Nat := 3

/-! ## Data model -/

/-- One OHLCV bar restricted to the columns the screener reads
(`df["Close"]`, `df["Volume"]`). -/
structure Bar where
  close : ℚ
  volume : ℚ
deriving DecidableEq

/-- A chronological per-ticker price frame. -/
abbrev PriceSeq := List Bar

/-- The shape of one `yf.download` result: either a MultiIndex frame keyed
by ticker (multi-ticker request) or a flat single-ticker frame
(lines 80-85 of the source branch on `isinstance(data.columns, pd.MultiIndex)`). -/
inductive BatchData where
  | multi (tbl : List (String × PriceSeq))
  | single (df : PriceSeq)
deriving DecidableEq

/-- A row of the `results` accumulator (lines 133-143). -/
structure ScreenRecord where
  ticker : String
  sector : String
  industry : String
  price : ℚ
  pctFromHigh : ℚ
  pctFromLow : ℚ
  ma50 : ℚ
  ma150 : ℚ
  ma200 : ℚ
deriving DecidableEq

/-- A row of the `failed_tickers` accumulator (lines 42, 75, 146). -/
structure FailureRecord where
  ticker : String
  reason : String
deriving DecidableEq

/-! ## Rounding

Python's `round` and numpy's `.round()` round half to even.  We model them
exactly on ℚ. -/

/-- Round a rational to the nearest integer, half to even. -/
def roundHalfEven (q : ℚ) : ℤ :=
  if 2 * (q - ⌊q⌋) < 1 then ⌊q⌋
  else if 1 < 2 * (q - ⌊q⌋) then ⌊q⌋ + 1
  else if ⌊q⌋ % 2 = 0 then ⌊q⌋ else ⌊q⌋ + 1

/-- Python `round(q, n)`: round to `n` decimal places, half to even. -/
def roundTo (n : Nat) (q : ℚ) : ℚ :=
  (roundHalfEven (q * 10 ^ n) : ℚ) / 10 ^ n

/-! ## Rolling statistics -/

/-- Pandas `close.rolling(w).mean().iloc[-k]` (`k ≥ 1`): the mean of the window of
`w` values ending at position `length - k`; `None` models pandas `NaN`
when the series is too short for that window (or the position is out of
range). -/
def rollingMeanFromEnd (xs : List ℚ) (w k : Nat) : Option ℚ :=
  if 1 ≤ k ∧ k ≤ xs.length ∧ w ≤ xs.length + 1 - k then
    some (((xs.take (xs.length + 1 - k)).drop (xs.length + 1 - k - w)).sum / w)
  else none

/-- Pandas semantics of `a >= b` when `a` may be `NaN`: any comparison with
`NaN` is `False` (line 114 compares `ma200.iloc[-20] >= ma200.iloc[-1]`
where the former may be `NaN`). -/
def nanGE (a : Option ℚ) (b : ℚ) : Bool :=
  match a with
  | none => false
  | some x => decide (b ≤ x)

/-- Pandas `volume.tail(50).mean()` (line 126): mean of the last `n` values. -/
def tailMean (xs : List ℚ) (n : Nat) : ℚ :=
  let t := xs.drop (xs.length - n)
  t.sum / t.length

/-! ## Trend template rules -/

/-- Line 120: `price / low_52w < 1.25` causes a skip. -/
def lowProximityFails (price low52 : ℚ) : Bool :=
  price / low52 < 5 / 4

/-- Line 123: `price / high_52w < 0.75` causes a skip. -/
def highProximityFails (price high52 : ℚ) : Bool :=
  price / high52 < 3 / 4

/-- Per-ticker extraction from the downloaded batch (lines 80-85): in the
MultiIndex shape a ticker absent from the level-0 columns is skipped
(`continue`); in the flat shape the whole frame is the ticker's frame. -/
def extract (data : BatchData) (ticker : String) : Option PriceSeq :=
  match data with
  | .multi tbl => tbl.lookup ticker
  | .single df => some df

/-- The per-ticker trend + liquidity evaluation (lines 87-143).  `none`
models every `continue` (the ticker is skipped and nothing is recorded);
`some r` models `results.append(r)`. -/
def evalTicker (ticker : String) (df : PriceSeq) : Option ScreenRecord :=
  -- line 87: `if df.empty or len(df) < MA_LONG: continue`
  if df.length = 0 ∨ df.length < MA_LONG then none
  else
    let close := df.map Bar.close
    let volume := df.map Bar.volume
    -- lines 93-103: current MA values; skip if any is NaN
    match rollingMeanFromEnd close MA_SHORT 1, rollingMeanFromEnd close MA_MED 1,
          rollingMeanFromEnd close MA_LONG 1 with
    | some ma50, some ma150, some ma200 =>
      -- `close.iloc[-1]`; `close` is nonempty by the length guard
      let price := close.getLastD 0
      -- lines 108-112: ascending MA stack; Python's chained comparisons
      -- `price > ma150 > ma200 and ma50 > ma150 > ma200` expand to the
      -- four conjuncts below
      if ¬((ma150 < price ∧ ma200 < ma150) ∧ (ma150 < ma50 ∧ ma200 < ma150)) then none
      -- line 114: `ma200.iloc[-20] >= ma200.iloc[-1]` (False when the
      -- former is NaN, per pandas comparison semantics)
      else if nanGE (rollingMeanFromEnd close MA_LONG 20) ma200 then none
      else
        -- lines 117-118: 52-week extremes; `close` is nonempty
        let low52 := (close.min?).getD 0
        let high52 := (close.max?).getD 0
        if lowProximityFails price low52 then none
        else if highProximityFails price high52 then none
        -- line 126: liquidity gate
        else if tailMean volume 50 < MIN_VOLUME then none
        else some
          { ticker := ticker
            sector := "Unknown"
            industry := "Unknown"
            price := roundTo 2 price
            pctFromHigh := roundTo 1 ((1 - price / high52) * 100)
            pctFromLow := roundTo 1 ((price / low52 - 1) * 100)
            ma50 := roundTo 2 ma50
            ma150 := roundTo 2 ma150
            ma200 := roundTo 2 ma200 }
    | _, _, _ => none

/-! ## Ticker loading (lines 37-42) -/

/-- A raw cell of the ticker CSV: either a string or some non-string value
(e.g. the float NaN pandas yields for an empty cell). -/
inductive RawEntry where
  | str (s : String)
  | nonStr
deriving DecidableEq

/-- The whitespace characters `str.strip()` removes (ticker lists are
ASCII). -/
def isSpace (c : Char) : Bool := c = ' ' ∨ c = '\t' ∨ c = '\n' ∨ c = '\r'

/-- Python `str.strip()`: drop leading and trailing whitespace, modelled
over the string's character list. -/
def pyStrip (s : String) : String :=
  ⟨((s.data.dropWhile isSpace).reverse.dropWhile isSpace).reverse⟩

/-- Python `str.upper()`: uppercase each character. -/
def pyUpper (s : String) : String := ⟨s.data.map Char.toUpper⟩

/-- Line 38: `[str(t).strip().upper() for t in tickers_raw if isinstance(t, str) and t.strip()]`.
Non-string and blank entries are dropped; survivors are trimmed then
uppercased.  Nothing is appended to any failure accumulator here. -/
def normalizeTickers (raw : List RawEntry) : List String :=
  raw.filterMap (fun e =>
    match e with
    | .str s => if pyStrip s ≠ "" then some (pyUpper (pyStrip s)) else none
    | .nonStr => none)

/-- Line 42: the `failed_tickers` accumulator starts empty; ticker loading
never touches it. -/
def failed_tickers_init : List FailureRecord := []

/-! ## Batch partitioning and the retry loop (lines 55-76) -/

/-- The `tickers[i:i+BATCH_SIZE]` chunks of the outer loop (line 55-56),
order-preserving. -/
def toBatches (ts : List String) : List (List String) :=
  if h : ts = [] then []
  else ts.take BATCH_SIZE :: toBatches (ts.drop BATCH_SIZE)
termination_by ts.length
decreasing_by
  simp only [List.length_drop]
  have : 0 < ts.length := List.length_pos.mpr h
  simp only [BATCH_SIZE]
  omega

/-- The external data provider for the trend-screen download, per batch
index and attempt number: `Except.error` models `yf.download` raising. -/
abbrev FetchOracle := Nat → Nat → Except Unit BatchData

/-- The `for attempt in range(MAX_RETRIES): try ... break / except ...
sleep(random.randint(10, 20))` loop with its `else` clause (lines 58-72).
`a` is the current attempt index, the second argument the remaining
attempts.  Returns the fetched data (`none` when every attempt raised,
i.e. the `for/else` branch) together with the list of randomized waits
slept (`rand a` models `random.randint(10, 20)` drawn after attempt `a`
failed). -/
def retryFetch (fetch : Nat → Except Unit BatchData) (rand : Nat → Nat) :
    Nat → Nat → Option BatchData × List Nat
  | _, 0 => (none, [])
  | a, n + 1 =>
    match fetch a with
    | .ok d => (some d, [])
    | .error _ =>
      ((retryFetch fetch rand (a + 1) n).1, rand a :: (retryFetch fetch rand (a + 1) n).2)

/-- The per-ticker loop over a successfully fetched batch (lines 78-146):
each ticker is looked up in the batch data and evaluated; `none` outcomes
are skipped silently.  (With the market-data contract of well-formed
frames, the `except` branch at line 145 is unreachable, so a successful
batch contributes no failure records.) -/
def processBatch (batch : List String) (data : BatchData) : List ScreenRecord :=
  batch.filterMap (fun t => (extract data t).bind (evalTicker t))

/-- The whole trend-screen loop over the batch list, starting at batch
index `b`: a batch whose every fetch attempt raised marks all its tickers
`"Download failed"` and processing continues with the next batch
(lines 73-76); a fetched batch contributes its surviving records.
Returns (`results`, `failed_tickers`). -/
def screenBatches (fetch : FetchOracle) (rand : Nat → Nat → Nat) :
    Nat → List (List String) → List ScreenRecord × List FailureRecord
  | _, [] => ([], [])
  | b, batch :: rest =>
    match (retryFetch (fetch b) (rand b) 0 MAX_RETRIES).1 with
    | none =>
      ((screenBatches fetch rand (b + 1) rest).1,
       batch.map (fun t => ⟨t, "Download failed"⟩) ++ (screenBatches fetch rand (b + 1) rest).2)
    | some data =>
      (processBatch batch data ++ (screenBatches fetch rand (b + 1) rest).1,
       (screenBatches fetch rand (b + 1) rest).2)

/-- The full trend-template screen (lines 55-149). -/
def screenRun (tickers : List String) (fetch : FetchOracle) (rand : Nat → Nat → Nat) :
    List ScreenRecord × List FailureRecord :=
  screenBatches fetch rand 0 (toBatches tickers)

/-! ## RS calculation (lines 47-50, 154-202) -/

/-- Pandas `prices.iloc[-k]`: the element at position `length - k` for `k ≥ 1`
(and `iloc[-0] = iloc[0]`, the first element); `none` models the
out-of-range `IndexError`. -/
def ilocNeg (xs : List ℚ) (k : Nat) : Option ℚ :=
  if k = 0 then xs[0]? else xs[xs.length - k]?

/-- Lines 47-50:
`if len(prices) >= days: return (prices.iloc[-1] / prices.iloc[-days] - 1) * 100`
else `np.nan` (modelled as `none`). -/
def rate_of_change (prices : List ℚ) (days : Nat) : Option ℚ :=
  if days ≤ prices.length then
    match ilocNeg prices 1, ilocNeg prices days with
    | some latest, some past => some ((latest / past - 1) * 100)
    | _, _ => none
  else none

/-- Lines 176-189: the four horizon ROCs and the weighted composite;
`none` when any horizon ROC is NaN (the `np.isnan(...).any()` skip at
line 181). -/
def compositeStrength (prices : List ℚ) : Option ℚ :=
  match rate_of_change prices 63, rate_of_change prices 126,
        rate_of_change prices 189, rate_of_change prices 252 with
  | some roc3m, some roc6m, some roc9m, some roc12m =>
    some (40 / 100 * roc3m + 20 / 100 * roc6m + 20 / 100 * roc9m + 20 / 100 * roc12m)
  | _, _, _, _ => none

/-- A row of `rs_rows` (lines 191-194). -/
structure RSRow where
  ticker : String
  strength : ℚ
deriving DecidableEq

/-- The RS loop (lines 169-197) over the survivors' tickers.  The oracle
`rsFetch` models the extended-history download at lines 158-165: it yields
the ticker's `"Adj Close"` series after `dropna()` when the ticker is
present in `rs_data` with that column, and `none` otherwise (the skip at
lines 171-172). -/
def rsRows (survivors : List String) (rsFetch : String → Option (List ℚ)) :
    List RSRow :=
  survivors.filterMap (fun t =>
    match rsFetch t with
    | none => none
    | some prices =>
      match compositeStrength prices with
      | none => none
      | some s => some ⟨t, roundTo 2 s⟩)

/-! ## Percentile rank (line 202)

`df["RS_Strength"].rank(pct=True)` uses the default `method='average'`:
an element's rank is (number of smaller elements) + (ties + 1)/2, and
`pct=True` divides by the number of non-NaN elements.  NaN entries keep a
NaN rank. -/

/-- Average rank of `x` within the score list `s`. -/
def avgRank (s : List ℚ) (x : ℚ) : ℚ :=
  (s.countP (fun y => decide (y < x)) : ℚ) + ((s.count x : ℚ) + 1) / 2

/-- Percentile (in [0,1]) of `x` within `s`. -/
def pctRank (s : List ℚ) (x : ℚ) : ℚ :=
  avgRank s x / s.length

/-- The `(rank(pct=True) * 100).round().astype("Int64")` column value for a defined score. -/
def rsRating (s : List ℚ) (x : ℚ) : ℤ :=
  roundHalfEven (pctRank s x * 100)

/-! ## Merge and final assembly (lines 199-221) -/

/-- A row of the final frame after the left merge (line 201) and the
rating column (line 202): the `ScreenRecord` columns plus nullable
`RS_Strength` and `RS_Rating` (`none` models NaN / pandas `<NA>`). -/
structure FinalRow where
  scr : ScreenRecord
  strength : Option ℚ
  rating : Option ℤ
deriving DecidableEq

/-- Pandas `df.merge(rs_df, on="Ticker", how="left")` (line 201) when
`rs_df` has its "Ticker" column, i.e. when `rs` is nonempty (`buildFinal`
raises for the empty case): every left row is kept; a left row with no
matching RS ticker gets a NaN strength; one output row per matching right
row otherwise. -/
def mergeRS (screen : List ScreenRecord) (rs : List RSRow) :
    List (ScreenRecord × Option ℚ) :=
  screen.flatMap (fun r =>
    match rs.filter (fun x => x.ticker = r.ticker) with
    | [] => [(r, none)]
    | ms => ms.map (fun m => (r, some m.strength)))

/-- Line 202: the `RS_Rating` column, ranked among the non-NaN strengths
of the merged column; NaN strengths keep a `<NA>` rating. -/
def assignRatings (merged : List (ScreenRecord × Option ℚ)) : List FinalRow :=
  merged.map (fun p =>
    { scr := p.1, strength := p.2,
      rating := p.2.map (fun s => rsRating (merged.filterMap Prod.snd) s) })

/-- The final frame: `pd.DataFrame(results)` on an empty `results` list is
a frame with no columns at all, and the `if not df.empty` guard (line 157)
skips the whole RS block for it. -/
inductive FinalFrame where
  | noCols
  | table (rows : List FinalRow)
deriving DecidableEq

/-- Lines 154-202: build the final frame from the trend survivors.  An
empty survivor set gives `pd.DataFrame([])` with no columns, and the
`if not df.empty` guard (line 157) skips the whole RS block for it.
Otherwise the RS block runs: `rs_df = pd.DataFrame(rs_rows)` (line 199)
has a "Ticker" column exactly when `rs_rows` is nonempty; when it is
empty, `df.merge(rs_df, on="Ticker", how="left")` at line 201 raises
`KeyError` and the run aborts. -/
def buildFinal (screen : List ScreenRecord) (rsFetch : String → Option (List ℚ)) :
    Except String FinalFrame :=
  if screen.isEmpty then .ok .noCols
  else if (rsRows (screen.map ScreenRecord.ticker) rsFetch).isEmpty then
    .error "KeyError: Ticker"
  else
    .ok (.table (assignRatings
      (mergeRS screen (rsRows (screen.map ScreenRecord.ticker) rsFetch))))

/-! ## Sorting and output (lines 209-221) -/

/-- Insertion of `x` in front of the first element it should precede. -/
def insertOrd (before : α → α → Bool) (x : α) : List α → List α
  | [] => [x]
  | y :: ys => if before x y then x :: y :: ys else y :: insertOrd before x ys

/-- Comparison sort used to model `sort_values` (pandas' quicksort is not
stable; no claim depends on the order of ties). -/
def sortOrd (before : α → α → Bool) (l : List α) : List α :=
  l.foldr (insertOrd before) []

/-- The `sort_values("RS_Rating", ascending=False)` ordering: ratings
descending, `<NA>` last (`na_position` default). -/
def ratingBefore (a b : FinalRow) : Bool :=
  match a.rating, b.rating with
  | some x, some y => decide (y ≤ x)
  | some _, none => true
  | none, some _ => false
  | none, none => true

/-- Line 209: `df = df.sort_values("RS_Rating", ascending=False)`.  On the
no-column frame produced by an empty survivor set this raises
`KeyError: 'RS_Rating'` and the run aborts before writing any output. -/
def sortOutput : FinalFrame → Except String (List FinalRow)
  | .noCols => .error "KeyError: RS_Rating"
  | .table rows => .ok (sortOrd ratingBefore rows)

/-- Lines 215-220: `df.groupby(["Sector", "Industry"], dropna=False).size()`
then sort by `Count` descending. -/
def sectorReport (rows : List FinalRow) : List ((String × String) × Nat) :=
  let keys := rows.map (fun r => (r.scr.sector, r.scr.industry))
  sortOrd (fun a b => decide (b.2 ≤ a.2))
    (keys.dedup.map (fun p => (p, keys.count p)))

/-- Everything a completed run leaves behind for its terminal-bucket
accounting: the sorted candidate table and the failure set. -/
structure RunOutput where
  table : List FinalRow
  failures : List FailureRecord
deriving DecidableEq

/-- The whole pipeline, from the raw ticker source to the outputs; an
`Except.error` is an uncaught exception aborting the run. -/
def fullRun (raw : List RawEntry) (fetch : FetchOracle) (rand : Nat → Nat → Nat)
    (rsFetch : String → Option (List ℚ)) : Except String RunOutput :=
  match buildFinal (screenRun (normalizeTickers raw) fetch rand).1 rsFetch with
  | .error e => .error e
  | .ok ff =>
    match sortOutput ff with
    | .error e => .error e
    | .ok rows => .ok ⟨rows, (screenRun (normalizeTickers raw) fetch rand).2⟩

/-! ## Concrete sample data for witnesses and counterexamples -/

/-- A 200-bar series with closes 1, 2, …, 200 and constant volume 400000:
rising MAs, new high at the last bar — passes every trend rule and the
liquidity gate. -/
def rampBars : PriceSeq := (List.range 200).map (fun (i : Nat) => ⟨(i : ℚ) + 1, 400000⟩)

/-- The close column of `rampBars`. -/
def rampCloses : List ℚ := (List.range 200).map (fun (i : Nat) => (i : ℚ) + 1)

/-- The `ScreenRecord` the screener produces for a ticker with `rampBars`
history (MA50 = 175.5, MA150 = 125.5, MA200 = 100.5). -/
def rampRec (t : String) : ScreenRecord :=
  { ticker := t, sector := "Unknown", industry := "Unknown", price := 200,
    pctFromHigh := 0, pctFromLow := 19900, ma50 := 351/2, ma150 := 251/2, ma200 := 201/2 }

/-- A 250-bar series with constant close 10: `price > ma150` is falsified
(price = MA150 = 10), so the ticker fails the first trend rule. -/
def flatBars : PriceSeq := List.replicate 250 ⟨10, 400000⟩

/-- The close column of `flatBars`. -/
def flatCloses : List ℚ := List.replicate 250 10

/-- A 100-bar series: shorter than the long MA window. -/
def shortBars : PriceSeq := List.replicate 100 ⟨10, 400000⟩

/-- A fetch oracle that always succeeds with a single-ticker table. -/
def fetchOne (t : String) : FetchOracle :=
  fun _ _ => .ok (.multi [(t, rampBars)])

/-- A fetch oracle for the two-ticker universe {AAA ↦ flat, PSS ↦ ramp}. -/
def fetchTwo : FetchOracle :=
  fun _ _ => .ok (.multi [("AAA", flatBars), ("PSS", rampBars)])

/-- A fetch oracle for a universe whose one ticker has flat history. -/
def fetchFlat : FetchOracle :=
  fun _ _ => .ok (.multi [("AAA", flatBars)])

/-- A fetch oracle for a universe whose one ticker has short history. -/
def fetchShort : FetchOracle :=
  fun _ _ => .ok (.multi [("SRT", shortBars)])

/-- A degenerate randomized-delay oracle. -/
def rand15 : Nat → Nat → Nat := fun _ _ => 15

/-- An extended-history oracle with no data for any ticker. -/
def rsNone : String → Option (List ℚ) := fun _ => none

/-- A per-batch fetch oracle failing on attempts 0 and 1 and succeeding on
attempt 2. -/
def fetchFail2 : Nat → Except Unit BatchData :=
  fun a => if a < 2 then .error () else .ok (.multi [("RTY", rampBars)])

/-- A per-batch fetch oracle failing on every attempt. -/
def fetchFailAll : Nat → Except Unit BatchData :=
  fun _ => .error ()

/-- A 16-ticker universe: one full batch of 15 plus "PSS". -/
def bigRaw : List RawEntry :=
  [.str "T01", .str "T02", .str "T03", .str "T04", .str "T05", .str "T06",
   .str "T07", .str "T08", .str "T09", .str "T10", .str "T11", .str "T12",
   .str "T13", .str "T14", .str "T15", .str "PSS"]

/-- The normalized 16-ticker universe. -/
def ts16 : List String :=
  ["T01", "T02", "T03", "T04", "T05", "T06", "T07", "T08", "T09", "T10",
   "T11", "T12", "T13", "T14", "T15", "PSS"]

/-- Its first batch (the 15 T-tickers). -/
def b1 : List String :=
  ["T01", "T02", "T03", "T04", "T05", "T06", "T07", "T08", "T09", "T10",
   "T11", "T12", "T13", "T14", "T15"]

/-- The failure records of a batch whose every fetch attempt raised. -/
def bigFails : List FailureRecord :=
  b1.map (fun t => ⟨t, "Download failed"⟩)

/-- A fetch oracle that raises on every attempt for batch 0 and succeeds
for later batches with {PSS ↦ ramp}. -/
def fetchSplit : FetchOracle :=
  fun b _ => if b = 0 then .error () else .ok (.multi [("PSS", rampBars)])

/-- An extended-history oracle with a constant 252-observation series for
the one ticker `t` and nothing for anyone else. -/
def rsFor (t : String) : String → Option (List ℚ) :=
  fun u => if u = t then some (List.replicate 252 1) else none

/-- A fetch oracle for the two-survivor universe {HAS ↦ ramp, JNM ↦ ramp}. -/
def fetchHJ : FetchOracle :=
  fun _ _ => .ok (.multi [("HAS", rampBars), ("JNM", rampBars)])

/-! ## Evaluation lemmas for the sample data

Batteries marks the ℚ field operations `@[irreducible]`; `unseal` restores
definitional reduction so `decide` can evaluate the embedded pipeline. -/

unseal Rat.add Rat.mul Rat.inv Rat.sub Rat.ofScientific

set_option maxRecDepth 4000

theorem rampCloses_split :
    rampCloses = (List.range 199).map (fun (i : Nat) => (i : ℚ) + 1) ++ [200] := by
  rw [rampCloses, show (200 : Nat) = 199 + 1 from rfl, List.range_succ, List.map_append]
  norm_num

theorem rampCloses_getLast : rampCloses.getLastD 0 = 200 := by
  rw [rampCloses_split, List.getLastD_concat]

theorem rampCloses_min : rampCloses.min? = some 1 := by
  haveI : Std.Antisymm ((· : ℚ) ≤ ·) := ⟨by intro a b h h2; exact le_antisymm h h2⟩
  rw [List.min?_eq_some_iff (le_refl) (fun a b => min_choice a b) (fun a b c => le_min_iff)]
  constructor
  · rw [rampCloses]
    refine List.mem_map.mpr ⟨0, by simp, by norm_num⟩
  · intro b hb
    rw [rampCloses] at hb
    obtain ⟨i, _, hfi⟩ := List.mem_map.mp hb
    have : (0 : ℚ) ≤ (i : ℚ) := Nat.cast_nonneg i
    linarith [hfi]

theorem rampCloses_max : rampCloses.max? = some 200 := by
  haveI : Std.Antisymm ((· : ℚ) ≤ ·) := ⟨by intro a b h h2; exact le_antisymm h h2⟩
  rw [List.max?_eq_some_iff (le_refl) (fun a b => max_choice a b) (fun a b c => max_le_iff)]
  constructor
  · rw [rampCloses]
    refine List.mem_map.mpr ⟨199, by simp, by norm_num⟩
  · intro b hb
    rw [rampCloses] at hb
    obtain ⟨i, hi, hfi⟩ := List.mem_map.mp hb
    have hi2 : i ≤ 199 := by
      have := List.mem_range.mp hi
      omega
    have : (i : ℚ) ≤ 199 := by exact_mod_cast hi2
    linarith [hfi]

theorem evalTicker_rampBars (t : String) : evalTicker t rampBars = some (rampRec t) := by
  have hclose : rampBars.map Bar.close = rampCloses := by decide
  have hvol : rampBars.map Bar.volume = List.replicate 200 400000 := by decide
  have hlen : rampBars.length = 200 := by decide
  have h50 : rollingMeanFromEnd rampCloses MA_SHORT 1 = some (351/2) := by decide
  have h150 : rollingMeanFromEnd rampCloses MA_MED 1 = some (251/2) := by decide
  have h200 : rollingMeanFromEnd rampCloses MA_LONG 1 = some (201/2) := by decide
  have h20 : rollingMeanFromEnd rampCloses MA_LONG 20 = none := by decide
  have htm : tailMean (List.replicate 200 400000) 50 = 400000 := by decide
  simp only [evalTicker, hclose, hvol, hlen, h50, h150, h200, h20,
    rampCloses_getLast, rampCloses_min, rampCloses_max, htm]
  have e1 : roundTo 2 (200 : ℚ) = 200 := by decide
  have e2 : roundTo 1 (0 : ℚ) = 0 := by decide
  have e3 : roundTo 1 (19900 : ℚ) = 19900 := by decide
  have e4 : roundTo 2 ((351 : ℚ)/2) = 351/2 := by decide
  have e5 : roundTo 2 ((251 : ℚ)/2) = 251/2 := by decide
  have e6 : roundTo 2 ((201 : ℚ)/2) = 201/2 := by decide
  norm_num [nanGE, lowProximityFails, highProximityFails, MIN_VOLUME, MA_LONG,
    rampRec, e1, e2, e3, e4, e5, e6]

theorem flatCloses_getLast : flatCloses.getLastD 0 = 10 := by
  rw [flatCloses, show (250 : Nat) = 249 + 1 from rfl, List.replicate_succ',
    List.getLastD_concat]

theorem evalTicker_flatBars (t : String) : evalTicker t flatBars = none := by
  have hclose : flatBars.map Bar.close = flatCloses := by decide
  have hlen : flatBars.length = 250 := by decide
  have h50 : rollingMeanFromEnd flatCloses MA_SHORT 1 = some 10 := by decide
  have h150 : rollingMeanFromEnd flatCloses MA_MED 1 = some 10 := by decide
  have h200 : rollingMeanFromEnd flatCloses MA_LONG 1 = some 10 := by decide
  simp only [evalTicker, hclose, hlen, h50, h150, h200, flatCloses_getLast]
  norm_num [MA_LONG]

/-- A series shorter than the long MA window is skipped at the first guard:
no record is produced and no later rule is reached. -/
theorem evalTicker_insufficient (t : String) (df : PriceSeq)
    (h : df.length < MA_LONG) : evalTicker t df = none := by
  unfold evalTicker
  rw [if_pos (Or.inr h)]

theorem evalTicker_shortBars (t : String) : evalTicker t shortBars = none :=
  evalTicker_insufficient t shortBars (by decide)

/-- Every record the per-ticker evaluation emits carries the evaluated
ticker symbol and the constant `"Unknown"` sector/industry of
lines 130-131. -/
theorem evalTicker_fields {t : String} {df : PriceSeq} {r : ScreenRecord}
    (h : evalTicker t df = some r) :
    r.ticker = t ∧ r.sector = "Unknown" ∧ r.industry = "Unknown" := by
  simp only [evalTicker] at h
  repeat' split at h
  all_goals simp only [reduceCtorEq, Option.some.injEq] at h
  all_goals subst h
  all_goals exact ⟨rfl, rfl, rfl⟩

/-! ## Structural lemmas about the screen loop -/

theorem toBatches_nil : toBatches [] = [] := by
  rw [toBatches]
  rfl

theorem toBatches_flatten (ts : List String) : (toBatches ts).flatten = ts := by
  induction ts using toBatches.induct with
  | case1 => rw [toBatches_nil]; rfl
  | case2 ts hts ih =>
    rw [toBatches, dif_neg hts, List.flatten_cons, ih, List.take_append_drop]

theorem mem_processBatch {batch : List String} {data : BatchData} {r : ScreenRecord}
    (h : r ∈ processBatch batch data) :
    r.ticker ∈ batch ∧ r.sector = "Unknown" ∧ r.industry = "Unknown" := by
  obtain ⟨t, ht, he⟩ := List.mem_filterMap.mp h
  obtain ⟨df, _, he2⟩ := Option.bind_eq_some.mp he
  obtain ⟨h1, h2, h3⟩ := evalTicker_fields he2
  exact ⟨h1 ▸ ht, h2, h3⟩

theorem screenBatches_res_sub (f : FetchOracle) (rand : Nat → Nat → Nat) :
    ∀ (bs : List (List String)) (i : Nat) (r : ScreenRecord),
      r ∈ (screenBatches f rand i bs).1 →
      r.ticker ∈ bs.flatten ∧ r.sector = "Unknown" ∧ r.industry = "Unknown" := by
  intro bs
  induction bs with
  | nil => intro i r h; simp [screenBatches] at h
  | cons b rest ih =>
    intro i r h
    rw [screenBatches] at h
    cases hx : (retryFetch (f i) (rand i) 0 MAX_RETRIES).1 with
    | none =>
      rw [hx] at h
      obtain ⟨h1, h2, h3⟩ := ih (i + 1) r h
      exact ⟨by rw [List.flatten_cons]; exact List.mem_append.mpr (Or.inr h1), h2, h3⟩
    | some data =>
      rw [hx] at h
      rcases List.mem_append.mp h with h1 | h2
      · obtain ⟨h1, h2, h3⟩ := mem_processBatch h1
        exact ⟨by rw [List.flatten_cons]; exact List.mem_append.mpr (Or.inl h1), h2, h3⟩
      · obtain ⟨h1, h2, h3⟩ := ih (i + 1) r h2
        exact ⟨by rw [List.flatten_cons]; exact List.mem_append.mpr (Or.inr h1), h2, h3⟩

theorem screenBatches_fail_sub (f : FetchOracle) (rand : Nat → Nat → Nat) :
    ∀ (bs : List (List String)) (i : Nat) (fr : FailureRecord),
      fr ∈ (screenBatches f rand i bs).2 →
      fr.ticker ∈ bs.flatten ∧ fr.reason = "Download failed" := by
  intro bs
  induction bs with
  | nil => intro i fr h; simp [screenBatches] at h
  | cons b rest ih =>
    intro i fr h
    rw [screenBatches] at h
    cases hx : (retryFetch (f i) (rand i) 0 MAX_RETRIES).1 with
    | none =>
      rw [hx] at h
      rcases List.mem_append.mp h with h1 | h2
      · obtain ⟨t, ht, hfr⟩ := List.mem_map.mp h1
        refine ⟨?_, ?_⟩
        · rw [← hfr]
          rw [List.flatten_cons]
          exact List.mem_append.mpr (Or.inl ht)
        · rw [← hfr]
      · obtain ⟨h1, h2⟩ := ih (i + 1) fr h2
        exact ⟨by rw [List.flatten_cons]; exact List.mem_append.mpr (Or.inr h1), h2⟩
    | some data =>
      rw [hx] at h
      obtain ⟨h1, h2⟩ := ih (i + 1) fr h
      exact ⟨by rw [List.flatten_cons]; exact List.mem_append.mpr (Or.inr h1), h2⟩

/-- On a duplicate-free universe the surviving-record tickers and the
failure-record tickers of the trend screen are disjoint. -/
theorem screenBatches_disjoint (f : FetchOracle) (rand : Nat → Nat → Nat) :
    ∀ (bs : List (List String)) (i : Nat), bs.flatten.Nodup →
      ∀ r ∈ (screenBatches f rand i bs).1, ∀ fr ∈ (screenBatches f rand i bs).2,
        r.ticker ≠ fr.ticker := by
  intro bs
  induction bs with
  | nil => intro i _ r hr; simp [screenBatches] at hr
  | cons b rest ih =>
    intro i hnd r hr fr hfr
    rw [List.flatten_cons, List.nodup_append] at hnd
    obtain ⟨hndb, hndrest, hdisj⟩ := hnd
    rw [screenBatches] at hr hfr
    cases hx : (retryFetch (f i) (rand i) 0 MAX_RETRIES).1 with
    | none =>
      rw [hx] at hr hfr
      rcases List.mem_append.mp hfr with h1 | h2
      · obtain ⟨t, ht, hfr2⟩ := List.mem_map.mp h1
        have hrt := (screenBatches_res_sub f rand rest (i + 1) r hr).1
        intro he
        rw [← hfr2] at he
        exact hdisj (he ▸ ht) hrt
      · exact ih (i + 1) hndrest r hr fr h2
    | some data =>
      rw [hx] at hr hfr
      rcases List.mem_append.mp hr with h1 | h2
      · have hrt := (mem_processBatch h1).1
        have hft := (screenBatches_fail_sub f rand rest (i + 1) fr hfr).1
        intro he
        exact hdisj hrt (he ▸ hft)
      · exact ih (i + 1) hndrest r h2 fr hfr

/-! ## Structural lemmas about the RS merge and assembly -/

theorem mergeRS_fst {screen : List ScreenRecord} {rs : List RSRow}
    {p : ScreenRecord × Option ℚ} (h : p ∈ mergeRS screen rs) : p.1 ∈ screen := by
  obtain ⟨r, hr, hp⟩ := List.mem_flatMap.mp h
  cases hfil : rs.filter (fun x => x.ticker = r.ticker) with
  | nil =>
    rw [hfil] at hp
    simp only [List.mem_singleton] at hp
    rw [hp]
    exact hr
  | cons m ms =>
    rw [hfil] at hp
    obtain ⟨m2, _, hp2⟩ := List.mem_map.mp hp
    rw [← hp2]
    exact hr

theorem mergeRS_exists {screen : List ScreenRecord} (rs : List RSRow)
    (r : ScreenRecord) (hr : r ∈ screen) : ∃ p ∈ mergeRS screen rs, p.1 = r := by
  cases hfil : rs.filter (fun x => x.ticker = r.ticker) with
  | nil =>
    refine ⟨(r, none), List.mem_flatMap.mpr ⟨r, hr, ?_⟩, rfl⟩
    rw [hfil]
    exact List.mem_singleton.mpr rfl
  | cons m ms =>
    refine ⟨(r, some m.strength), List.mem_flatMap.mpr ⟨r, hr, ?_⟩, rfl⟩
    rw [hfil]
    exact List.mem_map.mpr ⟨m, List.mem_cons_self m ms, rfl⟩

theorem mergeRS_no_match {screen : List ScreenRecord} {rs : List RSRow}
    {p : ScreenRecord × Option ℚ} (h : p ∈ mergeRS screen rs)
    (hnone : ∀ x ∈ rs, x.ticker ≠ p.1.ticker) : p.2 = none := by
  obtain ⟨r, hr, hp⟩ := List.mem_flatMap.mp h
  cases hfil : rs.filter (fun x => x.ticker = r.ticker) with
  | nil =>
    rw [hfil] at hp
    simp only [List.mem_singleton] at hp
    rw [hp]
  | cons m ms =>
    exfalso
    have hm : m ∈ rs.filter (fun x => x.ticker = r.ticker) := by
      rw [hfil]
      exact List.mem_cons_self m ms
    have hmr : m ∈ rs := List.mem_of_mem_filter hm
    have hmt : m.ticker = r.ticker := by
      have := List.of_mem_filter hm
      exact of_decide_eq_true this
    have hp1 : p.1 = r := by
      rw [hfil] at hp
      rcases List.mem_map.mp hp with ⟨m2, _, hp2⟩
      rw [← hp2]
    exact hnone m hmr (by rw [hmt, hp1])

theorem rsRows_source {l : List String} {f : String → Option (List ℚ)} {x : RSRow}
    (h : x ∈ rsRows l f) : ∃ prices, f x.ticker = some prices := by
  obtain ⟨t, ht, hx⟩ := List.mem_filterMap.mp h
  cases hf : f t with
  | none => rw [hf] at hx; cases hx
  | some prices =>
    rw [hf] at hx
    dsimp only at hx
    cases hcs : compositeStrength prices with
    | none => rw [hcs] at hx; cases hx
    | some s =>
      rw [hcs] at hx
      dsimp only at hx
      injection hx with hx2
      rw [← hx2]
      exact ⟨prices, hf⟩

theorem assignRatings_mem {m : List (ScreenRecord × Option ℚ)} {row : FinalRow}
    (h : row ∈ assignRatings m) : ∃ p ∈ m, row.scr = p.1 ∧ row.strength = p.2 := by
  obtain ⟨p, hp, he⟩ := List.mem_map.mp h
  exact ⟨p, hp, by rw [← he], by rw [← he]⟩

theorem assignRatings_exists {m : List (ScreenRecord × Option ℚ)}
    (p : ScreenRecord × Option ℚ) (hp : p ∈ m) :
    (⟨p.1, p.2, p.2.map (fun s => rsRating (m.filterMap Prod.snd) s)⟩ : FinalRow) ∈
      assignRatings m :=
  List.mem_map.mpr ⟨p, hp, rfl⟩

theorem mem_insertOrd {α : Type} {before : α → α → Bool} {x a : α} :
    ∀ {l : List α}, a ∈ insertOrd before x l ↔ a = x ∨ a ∈ l := by
  intro l
  induction l with
  | nil => simp [insertOrd]
  | cons y ys ih =>
    rw [insertOrd]
    by_cases hb : before x y
    · rw [if_pos hb]
      simp
    · rw [if_neg hb]
      simp only [List.mem_cons, ih]
      tauto

theorem mem_sortOrd {α : Type} {before : α → α → Bool} {a : α} :
    ∀ {l : List α}, a ∈ sortOrd before l ↔ a ∈ l := by
  intro l
  induction l with
  | nil => simp [sortOrd]
  | cons y ys ih =>
    show a ∈ insertOrd before y (sortOrd before ys) ↔ _
    rw [mem_insertOrd]
    simp only [List.mem_cons, ih]

theorem length_insertOrd {α : Type} {before : α → α → Bool} {x : α} :
    ∀ {l : List α}, (insertOrd before x l).length = l.length + 1 := by
  intro l
  induction l with
  | nil => rfl
  | cons y ys ih =>
    rw [insertOrd]
    by_cases hb : before x y
    · rw [if_pos hb]
      rfl
    · rw [if_neg hb]
      simp [ih]

theorem length_sortOrd {α : Type} {before : α → α → Bool} :
    ∀ {l : List α}, (sortOrd before l).length = l.length := by
  intro l
  induction l with
  | nil => rfl
  | cons y ys ih =>
    show (insertOrd before y (sortOrd before ys)).length = _
    rw [length_insertOrd, ih]
    rfl

/-- Inversion of a completed run: its failure set is the screen loop's,
and every final-table row's screen half is a screen survivor. -/
theorem fullRun_ok_inv {raw : List RawEntry} {fetch : FetchOracle}
    {rand : Nat → Nat → Nat} {rsf : String → Option (List ℚ)} {out : RunOutput}
    (h : fullRun raw fetch rand rsf = .ok out) :
    out.failures = (screenRun (normalizeTickers raw) fetch rand).2 ∧
    ∀ row ∈ out.table,
      ∃ p ∈ mergeRS (screenRun (normalizeTickers raw) fetch rand).1
          (rsRows ((screenRun (normalizeTickers raw) fetch rand).1.map ScreenRecord.ticker) rsf),
        row.scr = p.1 ∧ row.strength = p.2 := by
  unfold fullRun at h
  cases hbf : buildFinal (screenRun (normalizeTickers raw) fetch rand).1 rsf with
  | error e => rw [hbf] at h; dsimp only at h; cases h
  | ok ff =>
    rw [hbf] at h
    dsimp only at h
    cases ff with
    | noCols =>
      rw [show sortOutput FinalFrame.noCols = .error "KeyError: RS_Rating" from rfl] at h
      cases h
    | table rows0 =>
      rw [show sortOutput (FinalFrame.table rows0) =
          .ok (sortOrd ratingBefore rows0) from rfl] at h
      dsimp only at h
      injection h with h2
      have htbl : out.table = sortOrd ratingBefore rows0 := by rw [← h2]
      have hfail : out.failures = (screenRun (normalizeTickers raw) fetch rand).2 := by
        rw [← h2]
      refine ⟨hfail, ?_⟩
      intro row hrow
      rw [htbl] at hrow
      have hrow0 : row ∈ rows0 := mem_sortOrd.mp hrow
      have hrows0 : rows0 = assignRatings
          (mergeRS (screenRun (normalizeTickers raw) fetch rand).1
            (rsRows ((screenRun (normalizeTickers raw) fetch rand).1.map ScreenRecord.ticker) rsf)) := by
        unfold buildFinal at hbf
        by_cases he : (screenRun (normalizeTickers raw) fetch rand).1.isEmpty
        · rw [if_pos he] at hbf
          injection hbf with hbf2
          cases hbf2
        · rw [if_neg he] at hbf
          by_cases hrs : (rsRows ((screenRun (normalizeTickers raw) fetch rand).1.map
              ScreenRecord.ticker) rsf).isEmpty
          · rw [if_pos hrs] at hbf
            cases hbf
          · rw [if_neg hrs] at hbf
            injection hbf with hbf2
            injection hbf2 with hbf3
            rw [hbf3]
      rw [hrows0] at hrow0
      exact assignRatings_mem hrow0

/-! ## Concrete runs of the pipeline -/

theorem toBatches_single (t : String) : toBatches [t] = [[t]] := by
  rw [toBatches, dif_neg (by simp)]
  simp [BATCH_SIZE, toBatches_nil]

theorem toBatches_pair (t u : String) : toBatches [t, u] = [[t, u]] := by
  rw [toBatches, dif_neg (by simp)]
  simp [BATCH_SIZE, toBatches_nil]

theorem screenRun_single (t : String) :
    screenRun [t] (fetchOne t) rand15 = ([rampRec t], []) := by
  have hr : (retryFetch (fetchOne t 0) (rand15 0) 0 MAX_RETRIES).1 =
      some (.multi [(t, rampBars)]) := rfl
  have hp : processBatch [t] (.multi [(t, rampBars)]) = [rampRec t] := by
    simp [processBatch, extract, List.lookup, evalTicker_rampBars]
  rw [screenRun, toBatches_single, screenBatches, hr, screenBatches]
  dsimp only
  rw [hp]
  simp

theorem screenRun_pair :
    screenRun ["AAA", "PSS"] fetchTwo rand15 = ([rampRec "PSS"], []) := by
  have hr : (retryFetch (fetchTwo 0) (rand15 0) 0 MAX_RETRIES).1 =
      some (.multi [("AAA", flatBars), ("PSS", rampBars)]) := rfl
  have e1 : extract (.multi [("AAA", flatBars), ("PSS", rampBars)]) "AAA" =
      some flatBars := rfl
  have e2 : extract (.multi [("AAA", flatBars), ("PSS", rampBars)]) "PSS" =
      some rampBars := rfl
  have hp : processBatch ["AAA", "PSS"] (.multi [("AAA", flatBars), ("PSS", rampBars)]) =
      [rampRec "PSS"] := by
    simp [processBatch, e1, e2, evalTicker_rampBars, evalTicker_flatBars]
  rw [screenRun, toBatches_pair, screenBatches, hr, screenBatches]
  dsimp only
  rw [hp]
  simp

theorem screenRun_flat :
    screenRun ["AAA"] fetchFlat rand15 = ([], []) := by
  have hr : (retryFetch (fetchFlat 0) (rand15 0) 0 MAX_RETRIES).1 =
      some (.multi [("AAA", flatBars)]) := rfl
  have hp : processBatch ["AAA"] (.multi [("AAA", flatBars)]) = [] := by
    simp [processBatch, extract, List.lookup, evalTicker_flatBars]
  rw [screenRun, toBatches_single, screenBatches, hr, screenBatches]
  dsimp only
  rw [hp]
  simp

theorem screenRun_short :
    screenRun ["SRT"] fetchShort rand15 = ([], []) := by
  have hr : (retryFetch (fetchShort 0) (rand15 0) 0 MAX_RETRIES).1 =
      some (.multi [("SRT", shortBars)]) := rfl
  have hp : processBatch ["SRT"] (.multi [("SRT", shortBars)]) = [] := by
    simp [processBatch, extract, List.lookup, evalTicker_shortBars]
  rw [screenRun, toBatches_single, screenBatches, hr, screenBatches]
  dsimp only
  rw [hp]
  simp

/-- With no extended-history data for anyone, `rs_rows` is empty and the
line-201 merge raises (the `pd.DataFrame([])` built from it has no
"Ticker" column). -/
theorem buildFinal_single_noRS (t : String) :
    buildFinal [rampRec t] rsNone = .error "KeyError: Ticker" := rfl

/-! ## Retry-loop lemmas -/

theorem retryFetch_ok {fetch : Nat → Except Unit BatchData} {rand : Nat → Nat}
    {a n : Nat} {d : BatchData} (h : fetch a = .ok d) :
    retryFetch fetch rand a (n + 1) = (some d, []) := by
  rw [retryFetch, h]

theorem retryFetch_err {fetch : Nat → Except Unit BatchData} {rand : Nat → Nat}
    {a n : Nat} (h : fetch a = .error ()) :
    retryFetch fetch rand a (n + 1) =
      ((retryFetch fetch rand (a + 1) n).1,
       rand a :: (retryFetch fetch rand (a + 1) n).2) := by
  rw [retryFetch, h]

theorem retryFetch_all_fail (fetch : Nat → Except Unit BatchData) (rand : Nat → Nat)
    (h : ∀ j, j < MAX_RETRIES → fetch j = .error ()) :
    retryFetch fetch rand 0 MAX_RETRIES = (none, [rand 0, rand 1, rand 2]) := by
  have e3 : retryFetch fetch rand 3 0 = (none, []) := rfl
  have e2 : retryFetch fetch rand 2 1 = (none, [rand 2]) := by
    rw [show (1 : Nat) = 0 + 1 from rfl, retryFetch_err (h 2 (by decide)), e3]
  have e1 : retryFetch fetch rand 1 2 = (none, [rand 1, rand 2]) := by
    rw [show (2 : Nat) = 1 + 1 from rfl, retryFetch_err (h 1 (by decide)), e2]
  show retryFetch fetch rand 0 3 = _
  rw [show (3 : Nat) = 2 + 1 from rfl, retryFetch_err (h 0 (by decide)), e1]

theorem retryFetch_first_ok (fetch : Nat → Except Unit BatchData) (rand : Nat → Nat)
    (d : BatchData) (k : Nat) (hk : k < MAX_RETRIES)
    (hfail : ∀ j, j < k → fetch j = .error ()) (hok : fetch k = .ok d) :
    retryFetch fetch rand 0 MAX_RETRIES = (some d, (List.range k).map rand) := by
  have hk3 : k < 3 := hk
  interval_cases k
  · show retryFetch fetch rand 0 3 = _
    rw [show (3 : Nat) = 2 + 1 from rfl, retryFetch_ok hok]
    rfl
  · have e1 : retryFetch fetch rand 1 2 = (some d, []) := by
      rw [show (2 : Nat) = 1 + 1 from rfl, retryFetch_ok hok]
    show retryFetch fetch rand 0 3 = _
    rw [show (3 : Nat) = 2 + 1 from rfl, retryFetch_err (hfail 0 (by decide)), e1]
    rfl
  · have e2 : retryFetch fetch rand 2 1 = (some d, []) := by
      rw [show (1 : Nat) = 0 + 1 from rfl, retryFetch_ok hok]
    have e1 : retryFetch fetch rand 1 2 = (some d, [rand 1]) := by
      rw [show (2 : Nat) = 1 + 1 from rfl, retryFetch_err (hfail 1 (by decide)), e2]
    show retryFetch fetch rand 0 3 = _
    rw [show (3 : Nat) = 2 + 1 from rfl, retryFetch_err (hfail 0 (by decide)), e1]
    rfl

theorem retryFetch_delays {fetch : Nat → Except Unit BatchData} {rand : Nat → Nat} :
    ∀ (n a : Nat) (w : Nat), w ∈ (retryFetch fetch rand a n).2 → ∃ j, w = rand j := by
  intro n
  induction n with
  | zero => intro a w h; cases h
  | succ n ih =>
    intro a w h
    cases hf : fetch a with
    | ok d => rw [retryFetch_ok hf] at h; cases h
    | error u =>
      cases u
      rw [retryFetch_err hf] at h
      rcases List.mem_cons.mp h with h1 | h2
      · exact ⟨a, h1⟩
      · exact ih (a + 1) w h2

theorem screenBatches_cons_fail {f : FetchOracle} {rand : Nat → Nat → Nat}
    {b : List String} {bs : List (List String)} {i : Nat}
    (h : (retryFetch (f i) (rand i) 0 MAX_RETRIES).1 = none) :
    screenBatches f rand i (b :: bs) =
      ((screenBatches f rand (i + 1) bs).1,
       b.map (fun t => ⟨t, "Download failed"⟩) ++ (screenBatches f rand (i + 1) bs).2) := by
  rw [screenBatches, h]

theorem screenBatches_cons_ok {f : FetchOracle} {rand : Nat → Nat → Nat}
    {b : List String} {bs : List (List String)} {i : Nat} (d : BatchData)
    (h : (retryFetch (f i) (rand i) 0 MAX_RETRIES).1 = some d) :
    screenBatches f rand i (b :: bs) =
      (processBatch b d ++ (screenBatches f rand (i + 1) bs).1,
       (screenBatches f rand (i + 1) bs).2) := by
  rw [screenBatches, h]

/-! ## Full-run helper computations -/

theorem rsFor_self (t : String) : rsFor t t = some (List.replicate 252 (1 : ℚ)) := by
  unfold rsFor
  rw [if_pos rfl]

theorem rsFor_other {t u : String} (h : u ≠ t) : rsFor t u = none := by
  unfold rsFor
  rw [if_neg h]

theorem rsRows_single_withRS (t : String) :
    rsRows [t] (rsFor t) = [⟨t, 0⟩] := by
  have hcs : compositeStrength (List.replicate 252 (1 : ℚ)) = some 0 := by decide
  have hrt : roundTo 2 (0 : ℚ) = 0 := by decide
  unfold rsRows
  simp only [List.filterMap_cons, List.filterMap_nil, rsFor_self, hcs, hrt]

theorem buildFinal_single_withRS (t : String) :
    buildFinal [rampRec t] (rsFor t) =
      .ok (.table [⟨rampRec t, some 0, some 100⟩]) := by
  have h1 : [rampRec t].map ScreenRecord.ticker = [t] := rfl
  have hrr : rsRating [0] 0 = 100 := by decide
  unfold buildFinal
  rw [h1, rsRows_single_withRS t]
  simp [mergeRS, assignRatings, rampRec, hrr]

theorem fullRun_single (t : String) (raw : List RawEntry)
    (hnorm : normalizeTickers raw = [t]) :
    fullRun raw (fetchOne t) rand15 (rsFor t) =
      .ok ⟨[⟨rampRec t, some 0, some 100⟩], []⟩ := by
  unfold fullRun
  rw [hnorm, screenRun_single t, buildFinal_single_withRS t]
  rfl

theorem fullRun_pair :
    fullRun [.str "AAA", .str "PSS"] fetchTwo rand15 (rsFor "PSS") =
      .ok ⟨[⟨rampRec "PSS", some 0, some 100⟩], []⟩ := by
  unfold fullRun
  rw [show normalizeTickers [.str "AAA", .str "PSS"] = ["AAA", "PSS"] from by decide,
      screenRun_pair, buildFinal_single_withRS "PSS"]
  rfl

theorem screenRun_hj :
    screenRun ["HAS", "JNM"] fetchHJ rand15 =
      ([rampRec "HAS", rampRec "JNM"], []) := by
  have hr : (retryFetch (fetchHJ 0) (rand15 0) 0 MAX_RETRIES).1 =
      some (.multi [("HAS", rampBars), ("JNM", rampBars)]) := rfl
  have e1 : extract (.multi [("HAS", rampBars), ("JNM", rampBars)]) "HAS" =
      some rampBars := rfl
  have e2 : extract (.multi [("HAS", rampBars), ("JNM", rampBars)]) "JNM" =
      some rampBars := rfl
  have hp : processBatch ["HAS", "JNM"] (.multi [("HAS", rampBars), ("JNM", rampBars)]) =
      [rampRec "HAS", rampRec "JNM"] := by
    simp [processBatch, e1, e2, evalTicker_rampBars]
  rw [screenRun, toBatches_pair, screenBatches, hr, screenBatches]
  dsimp only
  rw [hp]
  simp

theorem rsRows_hj :
    rsRows ["HAS", "JNM"] (rsFor "HAS") = [⟨"HAS", 0⟩] := by
  have hcs : compositeStrength (List.replicate 252 (1 : ℚ)) = some 0 := by decide
  have hrt : roundTo 2 (0 : ℚ) = 0 := by decide
  have ho : rsFor "HAS" "JNM" = none := rsFor_other (by decide)
  unfold rsRows
  simp only [List.filterMap_cons, List.filterMap_nil, rsFor_self, ho, hcs, hrt]

theorem buildFinal_hj :
    buildFinal [rampRec "HAS", rampRec "JNM"] (rsFor "HAS") =
      .ok (.table [⟨rampRec "HAS", some 0, some 100⟩,
                   ⟨rampRec "JNM", none, none⟩]) := by
  have h1 : [rampRec "HAS", rampRec "JNM"].map ScreenRecord.ticker =
      ["HAS", "JNM"] := rfl
  have hrr : rsRating [0] 0 = 100 := by decide
  unfold buildFinal
  rw [h1, rsRows_hj]
  simp [mergeRS, assignRatings, rampRec, hrr]

theorem fullRun_hj :
    fullRun [.str "HAS", .str "JNM"] fetchHJ rand15 (rsFor "HAS") =
      .ok ⟨[⟨rampRec "HAS", some 0, some 100⟩, ⟨rampRec "JNM", none, none⟩], []⟩ := by
  unfold fullRun
  rw [show normalizeTickers [.str "HAS", .str "JNM"] = ["HAS", "JNM"] from by decide,
      screenRun_hj, buildFinal_hj]
  rfl

/-! ## Aggregate-report lemmas -/

theorem dedup_len_const {α : Type} [DecidableEq α] {l : List α} {k : α}
    (h : ∀ x ∈ l, x = k) : l.dedup.length ≤ 1 := by
  cases hd : l.dedup with
  | nil => simp
  | cons a as =>
    cases has : as with
    | nil => simp
    | cons b bs =>
      exfalso
      have hnd := l.nodup_dedup
      rw [hd, has] at hnd
      have ha : a ∈ l.dedup := by rw [hd]; exact List.mem_cons_self _ _
      have hb : b ∈ l.dedup := by
        rw [hd, has]
        exact List.mem_cons_of_mem _ (List.mem_cons_self _ _)
      have ha2 := h a (List.mem_dedup.mp ha)
      have hb2 := h b (List.mem_dedup.mp hb)
      have hab : a ≠ b := by
        have hnc := List.nodup_cons.mp hnd
        intro he
        exact hnc.1 (he ▸ List.mem_cons_self b bs)
      exact hab (ha2.trans hb2.symm)

theorem report_const {rows : List FinalRow}
    (h : ∀ row ∈ rows, row.scr.sector = "Unknown" ∧ row.scr.industry = "Unknown") :
    (sectorReport rows).length ≤ 1 ∧ ∀ g ∈ sectorReport rows, g.2 = rows.length := by
  have hk : ∀ k ∈ rows.map (fun r => (r.scr.sector, r.scr.industry)),
      k = ("Unknown", "Unknown") := by
    intro k hkm
    obtain ⟨row, hrow, hke⟩ := List.mem_map.mp hkm
    obtain ⟨h1, h2⟩ := h row hrow
    rw [← hke, h1, h2]
  constructor
  · show (sortOrd _ _).length ≤ 1
    rw [length_sortOrd, List.length_map]
    exact dedup_len_const hk
  · intro g hg
    have hg2 := mem_sortOrd.mp hg
    obtain ⟨p, hp, hge⟩ := List.mem_map.mp hg2
    have hpk : p = ("Unknown", "Unknown") := hk p (List.mem_dedup.mp hp)
    have hc : (rows.map (fun r => (r.scr.sector, r.scr.industry))).count p =
        (rows.map (fun r => (r.scr.sector, r.scr.industry))).length :=
      List.count_eq_length.mpr (fun b hb => hpk.trans (hk b hb).symm)
    rw [← hge]
    show (rows.map (fun r => (r.scr.sector, r.scr.industry))).count p = rows.length
    rw [hc, List.length_map]

/-! ## Claim theorems -/

/-- C4: per batch, the fetch is attempted up to `MAX_RETRIES` times with a
randomized delay drawn from `random.randint(10, 20)` after each failed
attempt; a success on any attempt yields that batch's data and no
`"Download failed"` record for the batch, while failures on all
`MAX_RETRIES` (= 3) attempts mark every ticker of the batch as
`"Download failed"` and processing continues with the next batch —
a batch-level failure never aborts the run. -/
theorem C4_batch_retry :
    (∀ (fetch : Nat → Except Unit BatchData) (rand : Nat → Nat) (d : BatchData) (k : Nat),
      k < MAX_RETRIES → (∀ j, j < k → fetch j = .error ()) → fetch k = .ok d →
      retryFetch fetch rand 0 MAX_RETRIES = (some d, (List.range k).map rand)) ∧
    (∀ (fetch : Nat → Except Unit BatchData) (rand : Nat → Nat),
      (∀ j, j < MAX_RETRIES → fetch j = .error ()) →
      retryFetch fetch rand 0 MAX_RETRIES = (none, [rand 0, rand 1, rand 2])) ∧
    (∀ (fetch : Nat → Except Unit BatchData) (rand : Nat → Nat),
      (∀ a, 10 ≤ rand a ∧ rand a ≤ 20) →
      ∀ w ∈ (retryFetch fetch rand 0 MAX_RETRIES).2, 10 ≤ w ∧ w ≤ 20) ∧
    (∀ (fetch : FetchOracle) (rand : Nat → Nat → Nat) (b : List String)
        (bs : List (List String)) (i : Nat),
      (∀ j, j < MAX_RETRIES → fetch i j = .error ()) →
      screenBatches fetch rand i (b :: bs) =
        ((screenBatches fetch rand (i + 1) bs).1,
         b.map (fun t => ⟨t, "Download failed"⟩) ++ (screenBatches fetch rand (i + 1) bs).2)) ∧
    (∀ (fetch : FetchOracle) (rand : Nat → Nat → Nat) (b : List String)
        (bs : List (List String)) (i : Nat) (d : BatchData) (k : Nat),
      k < MAX_RETRIES → (∀ j, j < k → fetch i j = .error ()) → fetch i k = .ok d →
      screenBatches fetch rand i (b :: bs) =
        (processBatch b d ++ (screenBatches fetch rand (i + 1) bs).1,
         (screenBatches fetch rand (i + 1) bs).2)) := by
  refine ⟨?_, ?_, ?_, ?_, ?_⟩
  · intro fetch rand d k hk hfail hok
    exact retryFetch_first_ok fetch rand d k hk hfail hok
  · intro fetch rand h
    exact retryFetch_all_fail fetch rand h
  · intro fetch rand hr w hw
    obtain ⟨j, hj⟩ := retryFetch_delays MAX_RETRIES 0 w hw
    rw [hj]
    exact hr j
  · intro fetch rand b bs i hfail
    exact screenBatches_cons_fail (by rw [retryFetch_all_fail (fetch i) (rand i) hfail])
  · intro fetch rand b bs i d k hk hfail hok
    exact screenBatches_cons_ok d
      (by rw [retryFetch_first_ok (fetch i) (rand i) d k hk hfail hok])

/-- C4 witness: two failures then a success return the data with no
failure records; three failures mark the whole batch and the run goes on
(the output for the batch is exactly the per-ticker failure tagging). -/
theorem C4_witness :
    retryFetch fetchFail2 (fun _ => 15) 0 MAX_RETRIES =
      (some (.multi [("RTY", rampBars)]), [15, 15]) ∧
    retryFetch fetchFailAll (fun _ => 15) 0 MAX_RETRIES = (none, [15, 15, 15]) ∧
    screenBatches (fun _ => fetchFailAll) rand15 0 [["AAA"]] =
      ([], [⟨"AAA", "Download failed"⟩]) := by
  refine ⟨?_, ?_, ?_⟩
  · have h := C4_batch_retry.1 fetchFail2 (fun _ => 15) (.multi [("RTY", rampBars)]) 2
      (by decide) (fun j hj => by simp [fetchFail2, hj]) (by simp [fetchFail2])
    rw [h]
    rfl
  · exact C4_batch_retry.2.1 fetchFailAll (fun _ => 15) (fun j _ => rfl)
  · have h := C4_batch_retry.2.2.2.1 (fun _ => fetchFailAll) rand15 ["AAA"] [] 0
      (fun j _ => rfl)
    rw [h]
    rfl

/-- C5: the strict-variant 52-week range checks are inclusive at their
thresholds: `price/low = 1.25` exactly does NOT trip the low-proximity
skip (the ticker passes that rule) and any smaller ratio trips it;
`price/high = 0.75` exactly does not trip the high-proximity skip and any
smaller ratio trips it. -/
theorem C5_strict_boundaries (price low52 high52 : ℚ) :
    (price / low52 = 5 / 4 → lowProximityFails price low52 = false) ∧
    (price / low52 < 5 / 4 → lowProximityFails price low52 = true) ∧
    (price / high52 = 3 / 4 → highProximityFails price high52 = false) ∧
    (price / high52 < 3 / 4 → highProximityFails price high52 = true) := by
  refine ⟨?_, ?_, ?_, ?_⟩ <;> intro h
  · rw [lowProximityFails, h]
    exact decide_eq_false (lt_irrefl _)
  · rw [lowProximityFails]
    exact decide_eq_true h
  · rw [highProximityFails, h]
    exact decide_eq_false (lt_irrefl _)
  · rw [highProximityFails]
    exact decide_eq_true h

/-- C5 witness: 15/12 = 1.25 passes while 149/120 fails; 15/20 = 0.75
passes while 149/200 fails. -/
theorem C5_witness :
    lowProximityFails 15 12 = false ∧ lowProximityFails 149 120 = true ∧
    highProximityFails 15 20 = false ∧ highProximityFails 149 200 = true :=
  ⟨(C5_strict_boundaries 15 12 20).1 (by norm_num),
   (C5_strict_boundaries 149 120 200).2.1 (by norm_num),
   (C5_strict_boundaries 15 12 20).2.2.1 (by norm_num),
   (C5_strict_boundaries 149 120 200).2.2.2 (by norm_num)⟩

/-- C6: `rate_of_change(series, k)` equals
`(latest / value_at(−k) − 1) × 100` whenever the series has at least `k`
(≥ 1) observations and is NaN (`none`) when it is shorter; and for a
series whose four horizon ROCs are all defined the composite strength is
exactly `0.40·ROC(63) + 0.20·ROC(126) + 0.20·ROC(189) + 0.20·ROC(252)`. -/
theorem C6_roc_composite (prices : List ℚ) (k : Nat) :
    (1 ≤ k → k ≤ prices.length →
      rate_of_change prices k =
        some ((prices.getD (prices.length - 1) 0 /
               prices.getD (prices.length - k) 0 - 1) * 100)) ∧
    (prices.length < k → rate_of_change prices k = none) ∧
    (∀ r3 r6 r9 r12 : ℚ,
      rate_of_change prices 63 = some r3 → rate_of_change prices 126 = some r6 →
      rate_of_change prices 189 = some r9 → rate_of_change prices 252 = some r12 →
      compositeStrength prices =
        some (40 / 100 * r3 + 20 / 100 * r6 + 20 / 100 * r9 + 20 / 100 * r12)) := by
  refine ⟨?_, ?_, ?_⟩
  · intro h1 hk
    have hi1 : prices.length - 1 < prices.length := by omega
    have hik : prices.length - k < prices.length := by omega
    rw [rate_of_change, if_pos hk, ilocNeg, if_neg (by omega), ilocNeg,
      if_neg (by omega), List.getElem?_eq_getElem hi1, List.getElem?_eq_getElem hik]
    dsimp only
    rw [List.getD_eq_getElem?_getD, List.getD_eq_getElem?_getD,
      List.getElem?_eq_getElem hi1, List.getElem?_eq_getElem hik]
    rfl
  · intro h
    rw [rate_of_change, if_neg (by omega)]
  · intro r3 r6 r9 r12 h3 h6 h9 h12
    rw [compositeStrength, h3, h6, h9, h12]

/-- C6 witness: for closes [1, 2, 4], ROC(3) = 300 and ROC(4) is NaN; a
constant 252-observation series has all four ROCs 0 and composite 0. -/
theorem C6_witness :
    rate_of_change [1, 2, 4] 3 = some 300 ∧
    rate_of_change [1, 2, 4] 4 = none ∧
    compositeStrength (List.replicate 252 (1 : ℚ)) = some 0 := by
  have h63 : rate_of_change (List.replicate 252 (1 : ℚ)) 63 = some 0 := by decide
  have h126 : rate_of_change (List.replicate 252 (1 : ℚ)) 126 = some 0 := by decide
  have h189 : rate_of_change (List.replicate 252 (1 : ℚ)) 189 = some 0 := by decide
  have h252 : rate_of_change (List.replicate 252 (1 : ℚ)) 252 = some 0 := by decide
  refine ⟨?_, (C6_roc_composite [1, 2, 4] 4).2.1 (by norm_num), ?_⟩
  · have h := (C6_roc_composite [1, 2, 4] 3).1 (by norm_num) (by norm_num)
    rw [h]
    norm_num
  · have h := (C6_roc_composite (List.replicate 252 (1 : ℚ)) 63).2.2 0 0 0 0
      h63 h126 h189 h252
    rw [h]
    norm_num

/-- C7: the percentile ranker is average-rank percentile scaled to 100 and
rounded to an integer: a singleton input maps to 100; for scores
[10, 20, 30] the ratings are strictly increasing with score and the
maximum maps to exactly 100; the tied block in [10, 20, 20, 30] shares
the mean of the percentiles 50 and 75 it straddles; and any unique
maximum maps to exactly 100. -/
theorem C7_percentile (s : List ℚ) (x : ℚ) :
    (∀ z : ℚ, rsRating [z] z = 100) ∧
    (rsRating [10, 20, 30] 10 < rsRating [10, 20, 30] 20 ∧
      rsRating [10, 20, 30] 20 < rsRating [10, 20, 30] 30 ∧
      rsRating [10, 20, 30] 30 = 100) ∧
    (pctRank [10, 20, 20, 30] 20 * 100 = (50 + 75) / 2) ∧
    (x ∈ s → s.count x = 1 → (∀ y ∈ s, y ≤ x) → rsRating s x = 100) := by
  refine ⟨?_, by refine ⟨by decide, by decide, by decide⟩, by decide, ?_⟩
  · intro z
    rw [rsRating, pctRank, avgRank]
    have h1 : List.countP (fun y => decide (y < z)) [z] = 0 := by
      simp [List.countP_cons]
    have h2 : List.count z [z] = 1 := by simp
    rw [h1, h2]
    have h3 : (((0 : ℕ) : ℚ) + (((1 : ℕ) : ℚ) + 1) / 2) /
        (([z] : List ℚ).length : ℚ) * 100 = 100 := by
      simp
    rw [h3]
    decide
  · intro hx hcount hmax
    have hn : 0 < s.length := List.length_pos.mpr (List.ne_nil_of_mem hx)
    have hsplit := List.length_eq_countP_add_countP (fun y => decide (y < x)) s
    have hcp2 : List.countP (fun a => decide (¬decide (a < x) = true)) s = s.count x := by
      rw [List.count_eq_countP]
      refine List.countP_congr ?_
      intro a ha
      constructor
      · intro h2
        have hnlt : ¬a < x := by simpa using h2
        have he : a = x := le_antisymm (hmax a ha) (not_lt.mp hnlt)
        simp [he]
      · intro h2
        have he : a = x := by simpa using h2
        simp [he]
    have hcpv : List.countP (fun y => decide (y < x)) s = s.length - 1 := by
      rw [hcp2, hcount] at hsplit
      omega
    rw [rsRating, pctRank, avgRank, hcpv, hcount]
    have hne : (s.length : ℚ) ≠ 0 := by
      have : (0 : ℚ) < s.length := by exact_mod_cast hn
      linarith
    have hq : ((s.length - 1 : ℕ) : ℚ) = (s.length : ℚ) - 1 := by
      have h1 : 1 ≤ s.length := hn
      push_cast [h1]
      ring
    rw [hq]
    have h4 : ((s.length : ℚ) - 1 + (((1 : ℕ) : ℚ) + 1) / 2) /
        (s.length : ℚ) * 100 = 100 := by
      field_simp
    rw [h4]
    decide

/-- C7 witness: the unique maximum of [1, 2] receives rating 100. -/
theorem C7_witness : rsRating [1, 2] 2 = 100 :=
  (C7_percentile [1, 2] 2).2.2.2 (by decide) (by decide) (by decide)

/-- C8 counterexample: a 100-bar ticker ("SRT", series length 100 < 200)
never gets a trend verdict, but the completed screen records NO outcome
for it at all — both the survivor list and the failure list are empty, so
there is no `InsufficientHistory` classification anywhere (the code's only
failure reasons are "Download failed" and caught exception strings). -/
theorem C8_counterexample :
    shortBars.length < MA_LONG ∧
    screenRun ["SRT"] fetchShort rand15 = ([], []) :=
  ⟨by decide, screenRun_short⟩

/-- C8 amended: for a ticker whose fetched series is shorter than the long
MA window (200), the evaluation exits at the length guard: no PASS
snapshot is produced and no later trend rule is evaluated — but the
ticker is silently skipped, with no recorded `InsufficientHistory` (or
any) reason: a batch containing only that ticker contributes neither a
survivor nor a failure record. -/
theorem C8_amended (t : String) (df : PriceSeq) (h : df.length < MA_LONG) :
    evalTicker t df = none ∧
    processBatch [t] (.multi [(t, df)]) = [] := by
  have he := evalTicker_insufficient t df h
  refine ⟨he, ?_⟩
  simp [processBatch, extract, List.lookup, he]

/-- C8 witness: the 100-bar series at a concrete ticker. -/
theorem C8_witness :
    evalTicker "SRT" shortBars = none ∧
    processBatch ["SRT"] (.multi [("SRT", shortBars)]) = [] :=
  C8_amended "SRT" shortBars (by decide)

/-- C9 counterexample: the source [" aapl ", "  ", non-string] is
normalized to ["AAPL"] — two entries are discarded — yet the completed
run's failure set is empty: no `FailureRecord(reason="invalid ticker")`
(or of any reason) is produced for the discards. -/
theorem C9_counterexample :
    normalizeTickers [.str " aapl ", .str "  ", .nonStr] = ["AAPL"] ∧
    fullRun [.str " aapl ", .str "  ", .nonStr] (fetchOne "AAPL") rand15
        (rsFor "AAPL") =
      .ok ⟨[⟨rampRec "AAPL", some 0, some 100⟩], []⟩ :=
  ⟨by decide,
   fullRun_single "AAPL" [.str " aapl ", .str "  ", .nonStr] (by decide)⟩

/-- C9 amended: ticker-source entries are stripped and uppercased before
use and every blank or non-string entry is discarded from the universe —
but the discards are silent: the failure accumulator starts empty and the
loading step never appends to it, so no `FailureRecord` with reason
"invalid ticker" (or any other) marks a discard. -/
theorem C9_amended (raw : List RawEntry) :
    (∀ s, RawEntry.str s ∈ raw → pyStrip s ≠ "" →
      pyUpper (pyStrip s) ∈ normalizeTickers raw) ∧
    (∀ t, t ∈ normalizeTickers raw →
      ∃ s, RawEntry.str s ∈ raw ∧ pyStrip s ≠ "" ∧ t = pyUpper (pyStrip s)) ∧
    failed_tickers_init = [] := by
  refine ⟨?_, ?_, rfl⟩
  · intro s hs hne
    exact List.mem_filterMap.mpr ⟨.str s, hs, by simp [hne]⟩
  · intro t ht
    obtain ⟨e, he, hfe⟩ := List.mem_filterMap.mp ht
    cases e with
    | nonStr => cases hfe
    | str s =>
      dsimp only at hfe
      by_cases hne : pyStrip s = ""
      · rw [if_neg (by simp [hne])] at hfe
        cases hfe
      · rw [if_pos hne] at hfe
        injection hfe with hfe2
        exact ⟨s, he, hne, hfe2.symm⟩

/-- C9 witness: the stripped, uppercased form of " aapl " enters the
universe. -/
theorem C9_witness :
    pyUpper (pyStrip " aapl ") ∈
      normalizeTickers [.str " aapl ", .str "  ", .nonStr] :=
  (C9_amended [.str " aapl ", .str "  ", .nonStr]).1 " aapl " (by decide) (by decide)

/-- C3 (code bug): when every ticker fails the trend screen the survivor
set is empty, `pd.DataFrame([])` has no columns, and
`df.sort_values("RS_Rating", ascending=False)` at line 209 raises
`KeyError`, aborting the run before any output is written.  The claim
(empty input → empty output, not an error) matches the code's evident
intent — the `if not df.empty` guard at line 157 and the "No candidates
found" branch at line 249 — but line 209 sits outside that guard. -/
theorem C3_code_bug :
    fullRun [.str "AAA"] fetchFlat rand15 rsNone = .error "KeyError: RS_Rating" := by
  unfold fullRun
  rw [show normalizeTickers [.str "AAA"] = ["AAA"] from by decide, screenRun_flat]
  rfl

theorem assignRatings_shape {m : List (ScreenRecord × Option ℚ)} {row : FinalRow}
    (h : row ∈ assignRatings m) :
    ∃ p ∈ m, row = ⟨p.1, p.2, p.2.map (fun s => rsRating (m.filterMap Prod.snd) s)⟩ := by
  obtain ⟨p, hp, he⟩ := List.mem_map.mp h
  exact ⟨p, hp, he.symm⟩

/-- C2 counterexample: both HAS and JNM pass trend and liquidity, the
extended-history fetch has data only for HAS (so the RS row set is
nonempty and the merge completes), and JNM has no RS record — yet the run
completes with "JNM" IN the final table (with NA strength and rating),
and the diagnostic set is empty: there is no `JoinMiss` record.  The
merge at line 201 is a LEFT join, not an inner join. -/
theorem C2_counterexample :
    fullRun [.str "HAS", .str "JNM"] fetchHJ rand15 (rsFor "HAS") =
      .ok ⟨[⟨rampRec "HAS", some 0, some 100⟩, ⟨rampRec "JNM", none, none⟩], []⟩ ∧
    rsFor "HAS" "JNM" = none ∧
    "JNM" ∈ ([⟨rampRec "HAS", some 0, some 100⟩, ⟨rampRec "JNM", none, none⟩] :
      List FinalRow).map (fun r => r.scr.ticker) :=
  ⟨fullRun_hj, rfl, by decide⟩

/-- C2 amended: whenever the RS merge completes (the RS row set is
nonempty — an empty `rs_rows` makes the line-201 merge itself raise
`KeyError: 'Ticker'` and abort the run), the final table is the LEFT join
of trend/liquidity survivors with the RS rows: every survivor keeps (at
least) one final-table row, and a survivor with no extended-history data
gets NA (`none`) strength and rating in its row; no `JoinMiss` diagnostic
exists anywhere in the pipeline (its only diagnostics are the
`failed_tickers` records of the screen loop). -/
theorem C2_amended (screen : List ScreenRecord) (rsf : String → Option (List ℚ))
    (rows : List FinalRow) (h : buildFinal screen rsf = .ok (.table rows)) :
    (∀ r ∈ screen, ∃ row ∈ rows, row.scr = r) ∧
    (∀ row ∈ rows,
      rsf row.scr.ticker = none → row.strength = none ∧ row.rating = none) := by
  have hrows : rows = assignRatings
      (mergeRS screen (rsRows (screen.map ScreenRecord.ticker) rsf)) := by
    unfold buildFinal at h
    by_cases he : screen.isEmpty
    · rw [if_pos he] at h
      injection h with h2
      cases h2
    · rw [if_neg he] at h
      by_cases hrs : (rsRows (screen.map ScreenRecord.ticker) rsf).isEmpty
      · rw [if_pos hrs] at h
        cases h
      · rw [if_neg hrs] at h
        injection h with h2
        injection h2 with h3
        rw [h3]
  subst hrows
  constructor
  · intro r hr
    obtain ⟨p, hp, hp1⟩ :=
      mergeRS_exists (rsRows (screen.map ScreenRecord.ticker) rsf) r hr
    exact ⟨_, assignRatings_exists p hp, hp1⟩
  · intro row hrow hnone
    obtain ⟨p, hp, hshape⟩ := assignRatings_shape hrow
    have hscr : row.scr = p.1 := by rw [hshape]
    have hnomatch : ∀ x ∈ rsRows (screen.map ScreenRecord.ticker) rsf,
        x.ticker ≠ p.1.ticker := by
      intro x hx he
      obtain ⟨prices, hpr⟩ := rsRows_source hx
      rw [he, ← hscr, hnone] at hpr
      cases hpr
    have hp2 : p.2 = none := mergeRS_no_match hp hnomatch
    rw [hshape]
    simp [hp2]

/-- C2 witness: in the completed two-survivor merge {HAS (with RS data),
JNM (without)}, the RS-less survivor "JNM" keeps a row with NA strength
and rating. -/
theorem C2_witness :
    (⟨rampRec "JNM", none, none⟩ : FinalRow).strength = none ∧
    (⟨rampRec "JNM", none, none⟩ : FinalRow).rating = none :=
  (C2_amended [rampRec "HAS", rampRec "JNM"] (rsFor "HAS")
      [⟨rampRec "HAS", some 0, some 100⟩, ⟨rampRec "JNM", none, none⟩]
      buildFinal_hj).2
    ⟨rampRec "JNM", none, none⟩ (by decide) (rsFor_other (by decide))

/-- The two-batch run: batch 0 (15 tickers) exhausts its retries and is
marked failed wholesale; batch 1 ("PSS") succeeds and survives. -/
theorem fullRun_big :
    fullRun bigRaw fetchSplit rand15 (rsFor "PSS") =
      .ok ⟨[⟨rampRec "PSS", some 0, some 100⟩], bigFails⟩ := by
  have hnorm : normalizeTickers bigRaw = ts16 := by decide
  have htb : toBatches ts16 = [b1, ["PSS"]] := by
    rw [toBatches, dif_neg (by decide),
      show List.take BATCH_SIZE ts16 = b1 from by decide,
      show List.drop BATCH_SIZE ts16 = ["PSS"] from by decide,
      toBatches_single]
  have hnone0 : (retryFetch (fetchSplit 0) (rand15 0) 0 MAX_RETRIES).1 = none := by
    rw [retryFetch_all_fail (fetchSplit 0) (rand15 0) (fun j _ => rfl)]
  have hok1 : (retryFetch (fetchSplit 1) (rand15 1) 0 MAX_RETRIES).1 =
      some (.multi [("PSS", rampBars)]) := rfl
  have hp : processBatch ["PSS"] (.multi [("PSS", rampBars)]) = [rampRec "PSS"] := by
    simp [processBatch, extract, List.lookup, evalTicker_rampBars]
  have hsb : screenBatches fetchSplit rand15 0 [b1, ["PSS"]] =
      ([rampRec "PSS"], bigFails) := by
    rw [screenBatches_cons_fail hnone0,
      screenBatches_cons_ok (.multi [("PSS", rampBars)]) hok1, screenBatches, hp]
    simp [bigFails]
  unfold fullRun
  rw [hnorm]
  unfold screenRun
  rw [htb, hsb, buildFinal_single_withRS "PSS"]
  rfl

/-- C1 counterexample: with universe {AAA, PSS}, AAA fails the first trend
rule (its price equals its MA150), PSS survives with RS data, and the run
completes — but AAA is in NO terminal bucket: it is neither in the final
table nor in the failure set, and the pipeline produces no JoinMiss (or
any other) diagnostic for it, contradicting "never none". -/
theorem C1_counterexample :
    "AAA" ∈ normalizeTickers [.str "AAA", .str "PSS"] ∧
    fullRun [.str "AAA", .str "PSS"] fetchTwo rand15 (rsFor "PSS") =
      .ok ⟨[⟨rampRec "PSS", some 0, some 100⟩], []⟩ ∧
    "AAA" ∉ ([⟨rampRec "PSS", some 0, some 100⟩] : List FinalRow).map
      (fun r => r.scr.ticker) ∧
    "AAA" ∉ ([] : List FailureRecord).map FailureRecord.ticker :=
  ⟨by decide, fullRun_pair, by decide, by decide⟩

/-- C1 amended: after a completed run over a duplicate-free universe a
ticker appears in AT MOST one terminal bucket — the final table and the
failure set are disjoint on tickers — but not "exactly one": tickers that
fail a trend rule, the liquidity gate, or are absent from a fetched batch
are silently dropped and belong to no bucket, and no JoinMiss bucket
exists (the left merge keeps RS-less survivors in the table). -/
theorem C1_amended (raw : List RawEntry) (fetch : FetchOracle)
    (rand : Nat → Nat → Nat) (rsf : String → Option (List ℚ)) (out : RunOutput)
    (hnd : (normalizeTickers raw).Nodup)
    (hok : fullRun raw fetch rand rsf = .ok out) :
    ∀ row ∈ out.table, ∀ fr ∈ out.failures, row.scr.ticker ≠ fr.ticker := by
  obtain ⟨hfail, htab⟩ := fullRun_ok_inv hok
  intro row hrow fr hfr
  obtain ⟨p, hp, hscr, _⟩ := htab row hrow
  have hps : p.1 ∈ (screenRun (normalizeTickers raw) fetch rand).1 := mergeRS_fst hp
  rw [hfail] at hfr
  rw [hscr]
  unfold screenRun at hps hfr
  have hndf : (toBatches (normalizeTickers raw)).flatten.Nodup := by
    rw [toBatches_flatten]
    exact hnd
  exact screenBatches_disjoint fetch rand (toBatches (normalizeTickers raw)) 0 hndf
    p.1 hps fr hfr

/-- C1 witness: in the two-batch run, the surviving row's ticker ("PSS")
differs from a failed batch's ticker ("T01"). -/
theorem C1_amended_witness :
    (⟨rampRec "PSS", some 0, some 100⟩ : FinalRow).scr.ticker ≠
      (⟨"T01", "Download failed"⟩ : FailureRecord).ticker :=
  C1_amended bigRaw fetchSplit rand15 (rsFor "PSS")
    ⟨[⟨rampRec "PSS", some 0, some 100⟩], bigFails⟩
    (by decide) fullRun_big ⟨rampRec "PSS", some 0, some 100⟩ (by decide)
    ⟨"T01", "Download failed"⟩ (by decide)

/-- C10: the metadata collaborator is never consulted — every final-table
row of a completed run has sector "Unknown" and industry "Unknown", so
the (sector, industry) aggregate report has at most one group, and each
group's count equals the number of final records. -/
theorem C10_unknown_metadata (raw : List RawEntry) (fetch : FetchOracle)
    (rand : Nat → Nat → Nat) (rsf : String → Option (List ℚ)) (out : RunOutput)
    (hok : fullRun raw fetch rand rsf = .ok out) :
    (∀ row ∈ out.table, row.scr.sector = "Unknown" ∧ row.scr.industry = "Unknown") ∧
    (sectorReport out.table).length ≤ 1 ∧
    (∀ g ∈ sectorReport out.table, g.2 = out.table.length) := by
  obtain ⟨hfail, htab⟩ := fullRun_ok_inv hok
  have hu : ∀ row ∈ out.table,
      row.scr.sector = "Unknown" ∧ row.scr.industry = "Unknown" := by
    intro row hrow
    obtain ⟨p, hp, hscr, _⟩ := htab row hrow
    have hps : p.1 ∈ (screenRun (normalizeTickers raw) fetch rand).1 := mergeRS_fst hp
    unfold screenRun at hps
    have hfields := (screenBatches_res_sub fetch rand _ 0 p.1 hps).2
    rw [hscr]
    exact hfields
  obtain ⟨hl, hc⟩ := report_const hu
  exact ⟨hu, hl, hc⟩

/-- C10 witness: the completed {AAA, PSS} run has one final record with
Unknown sector/industry, and the single report group counts it. -/
theorem C10_witness :
    ((⟨rampRec "PSS", some 0, some 100⟩ : FinalRow).scr.sector = "Unknown" ∧
      (⟨rampRec "PSS", some 0, some 100⟩ : FinalRow).scr.industry = "Unknown") ∧
    ((("Unknown", "Unknown"), 1) : (String × String) × Nat).2 =
      ([⟨rampRec "PSS", some 0, some 100⟩] : List FinalRow).length := by
  have h := C10_unknown_metadata [.str "AAA", .str "PSS"] fetchTwo rand15
    (rsFor "PSS") ⟨[⟨rampRec "PSS", some 0, some 100⟩], []⟩ fullRun_pair
  exact ⟨h.1 ⟨rampRec "PSS", some 0, some 100⟩ (by decide),
    h.2.2 (("Unknown", "Unknown"), 1) (by decide)⟩

end MinerviniScreener
